import Mathlib

/-!
Verification development for a certificate-generation pipeline.

The definitions below are a shallow embedding of the TypeScript sources
(`certificate-generator.ts`, `utils.ts`, `errors.ts`, `types.ts`):
JavaScript strings become `String`/`List Char`, JavaScript numbers become `ℚ`,
optional fields become `Option`, thrown errors become explicit error values,
and the external PDF engine / filesystem become an oracle record.
-/

namespace CertGen

/-! ### JavaScript character and string helpers -/

/-- Characters matched by the character class `[a-z0-9]` with the `i`
(case-insensitive) flag, i.e. ASCII alphanumerics. -/
def isAsciiAlnum (c : Char) : Bool :=
  (97 ≤ c.toNat && c.toNat ≤ 122) || (65 ≤ c.toNat && c.toNat ≤ 90) ||
    (48 ≤ c.toNat && c.toNat ≤ 57)

/-- ASCII lowercase letter or digit. -/
def isLowerAlnumChar (c : Char) : Bool :=
  (97 ≤ c.toNat && c.toNat ≤ 122) || (48 ≤ c.toNat && c.toNat ≤ 57)

/-- One character of JavaScript `String.prototype.toLowerCase` restricted to
ASCII (the only characters fed to it by the sanitizer are ASCII). -/
def toLowerChar (c : Char) : Char :=
  if 65 ≤ c.toNat && c.toNat ≤ 90 then Char.ofNat (c.toNat + 32) else c

/-- ASCII whitespace recognised by JavaScript `String.prototype.trim`. -/
def jsWhitespace (c : Char) : Bool :=
  c = ' ' || c = '\t' || c = '\n' || c = '\r' || c = '\x0b' || c = '\x0c'

/-- JavaScript `s.trim()` on the character list. -/
def jsTrimList (l : List Char) : List Char :=
  ((l.dropWhile jsWhitespace).reverse.dropWhile jsWhitespace).reverse

/-- JavaScript `s.trim()`. -/
def jsTrim (s : String) : String := ⟨jsTrimList s.data⟩

/-! ### `FileUtil.sanitizeFilename` (utils.ts, lines 39-45)

```ts
return filename
  .replace(/[^a-z0-9]/gi, "_")
  .toLowerCase()
  .replace(/_+/g, "_")
  .replace(/^_|_$/g, "");
```
-/

/-- `.replace(/[^a-z0-9]/gi, "_")`: every character outside `[A-Za-z0-9]`
becomes an underscore. -/
def replaceNonAlnum (l : List Char) : List Char :=
  l.map fun c => if isAsciiAlnum c then c else '_'

/-- `.toLowerCase()` (all characters at this stage are ASCII). -/
def lowerAll (l : List Char) : List Char := l.map toLowerChar

/-- `.replace(/_+/g, "_")`: collapse each maximal run of underscores to a
single underscore (equivalently, drop an underscore immediately followed by
another underscore). -/
def collapseU : List Char → List Char
  | [] => []
  | [c] => [c]
  | a :: b :: rest =>
    if a = '_' ∧ b = '_' then collapseU (b :: rest)
    else a :: collapseU (b :: rest)

/-- Drop a single leading underscore (the `^_` alternative of
`.replace(/^_|_$/g, "")`). -/
def dropLeadU : List Char → List Char
  | [] => []
  | c :: t => if c = '_' then t else c :: t

/-- Drop a single trailing underscore (the `_$` alternative). -/
def dropTrailU (l : List Char) : List Char := (dropLeadU l.reverse).reverse

/-- `.replace(/^_|_$/g, "")`: remove one leading and one trailing underscore
(the regex matches at most once at each end of the string). -/
def stripEdges (l : List Char) : List Char := dropTrailU (dropLeadU l)

/-- The whole sanitizer on character lists, in source order. -/
def sanitizeList (l : List Char) : List Char :=
  stripEdges (collapseU (lowerAll (replaceNonAlnum l)))

/-- `FileUtil.sanitizeFilename`. -/
def sanitizeFilename (s : String) : String := ⟨sanitizeList s.data⟩

/-! ### Data model (types.ts) -/

/-- The `mode` field of `GeneratorOptions`. -/
inductive Mode
  | test
  | production
deriving DecidableEq, Repr

/-- `RGB` (channel values are JavaScript numbers). -/
structure RGB where
  r : ℚ
  g : ℚ
  b : ℚ
deriving DecidableEq, Repr

/-- `Position` (page-space coordinates). -/
structure Position where
  x : ℚ
  y : ℚ
deriving DecidableEq, Repr

/-- `CertificateConfig`: one certificate request. Optional fields are
`Option`; a present-but-falsy JavaScript value is `some ""` / `some 0`. -/
structure CertificateConfig where
  name : String
  email : Option String := none
  outputPath : Option String := none
  fontSize : Option ℚ := none
  fontColor : Option RGB := none
  position : Option Position := none
deriving DecidableEq, Repr

/-- `GeneratorOptions`. -/
structure GeneratorOptions where
  templatePath : String
  fontPath : String
  outputDir : String
  defaultFontSize : ℚ
  defaultFontColor : RGB
  concurrency : Nat
  mode : Mode
  testName : Option String := none
deriving DecidableEq, Repr

/-! ### Error hierarchy (errors.ts)

`CertificateGeneratorError` is the base class; `FileNotFoundError`,
`InvalidConfigError` and `DataValidationError` extend it, each setting a
distinct `name` and possibly decorating the message.  Any other thrown value
(e.g. from the PDF library) is not an `instanceof CertificateGeneratorError`.
-/

/-- The `name` field distinguishing the subclasses of the base error. -/
inductive ErrName
  | certificateGeneratorError
  | fileNotFoundError
  | invalidConfigError
  | dataValidationError
deriving DecidableEq, Repr

/-- A JavaScript error value as seen by the generator: either an instance of
the `CertificateGeneratorError` hierarchy (with its `name`, `message` and
optional `cause`), or a foreign error. -/
inductive JSError
  | cge (ename : ErrName) (message : String) (cause : Option JSError)
  | external (message : String)

/-- `error instanceof CertificateGeneratorError`. -/
def JSError.isCertGeneratorError : JSError → Bool
  | .cge _ _ _ => true
  | .external _ => false

/-- `new InvalidConfigError(msg)` (the constructor prepends
`"Invalid configuration: "`). -/
def InvalidConfigError (msg : String) : JSError :=
  .cge .invalidConfigError ("Invalid configuration: " ++ msg) none

/-! ### `CertificateGenerator` private helpers -/

/-- JavaScript truthiness of an optional number (`0` is falsy). -/
def truthyNum : Option ℚ → Bool
  | none => false
  | some q => q != 0

/-- JavaScript truthiness of an optional string (`""` is falsy). -/
def truthyStr : Option String → Bool
  | none => false
  | some s => s != ""

/-- `calculateTextPosition` (certificate-generator.ts, lines 70-87).
`0.6` is the rational `3/5`. -/
def calculateTextPosition (text : String) (fontSize pageWidth pageHeight : ℚ)
    (customPosition : Option Position) : Position :=
  match customPosition with
  | some p => p
  | none =>
    let textWidth : ℚ := (text.length : ℚ) * fontSize * (3 / 5)
    { x := max 0 ((pageWidth - textWidth) / 2)
      y := pageHeight / 2 - fontSize / 2 }

/-- `path.join(dir, file)` for a directory with no trailing slash. -/
def pathJoin (dir file : String) : String := dir ++ "/" ++ file

/-- The filename-deriving branch of `generateOutputPath`
(certificate-generator.ts, lines 94-104).  `today` stands for
`new Date().toISOString().slice(0, 10)`, the resolver's invocation date; it is
a parameter of the run, not of the item. -/
def generateOutputPathNamed (opts : GeneratorOptions) (today : String)
    (config : CertificateConfig) : String :=
  let sanitizedName := sanitizeFilename config.name
  let filename :=
    if truthyStr config.email ∧ opts.mode = .production then
      sanitizedName ++ "_" ++ sanitizeFilename (config.email.getD "")
    else sanitizedName
  pathJoin opts.outputDir (filename ++ "_" ++ today ++ ".pdf")

/-- `generateOutputPath`, lines 89-105: the `if (config.outputPath)` guard is
JavaScript truthiness, then the named branch above. -/
def generateOutputPath (opts : GeneratorOptions) (today : String)
    (config : CertificateConfig) : String :=
  if truthyStr config.outputPath then config.outputPath.getD ""
  else generateOutputPathNamed opts today config

/-- `validateCertificateConfig` (certificate-generator.ts, lines 107-122);
returns the thrown error, or `none` when validation passes.  Note the
JavaScript guards: `!config.name`, `config.fontSize && ...` (zero font size is
falsy and skips the range check), `!config.email`. -/
def validateCertificateConfig (opts : GeneratorOptions)
    (config : CertificateConfig) : Option JSError :=
  if config.name = "" ∨ (jsTrim config.name).length = 0 then
    some (InvalidConfigError "Certificate name cannot be empty")
  else if truthyNum config.fontSize ∧
      (config.fontSize.getD 0 ≤ 0 ∨ 200 < config.fontSize.getD 0) then
    some (InvalidConfigError "Font size must be between 1 and 200")
  else if opts.mode = .production ∧
      (¬ truthyStr config.email ∨ (jsTrim (config.email.getD "")).length = 0) then
    some (InvalidConfigError "Email is required in production mode")
  else
    none

/-! ### The external PDF engine and filesystem, as an oracle

`PDFDocument.load`, `embedFont`, `save` and `writeFileSync` are external
capabilities that either succeed or throw; the oracle below fixes, for one
render, the outcome of each step and the template's first-page geometry.
-/

/-- Outcomes of the external steps of one `generateCertificate` call. -/
structure RenderEnv where
  /-- `PDFDocument.load(templateBuffer)`: an error, or the number of pages of
  the loaded document. -/
  loadResult : Except JSError Nat
  /-- `firstPage.getWidth()`. -/
  pageWidth : ℚ
  /-- `firstPage.getHeight()`. -/
  pageHeight : ℚ
  /-- `pdfDoc.embedFont(fontBuffer)`: `some e` when it throws `e`. -/
  embedFontResult : Option JSError
  /-- `pdfDoc.save()`: `some e` when it throws `e`. -/
  saveResult : Option JSError
  /-- `writeFileSync(outputPath, pdfBytes)`: `some e` when it throws `e`. -/
  writeResult : Option JSError

/-- Observable outcome of one `generateCertificate` call: the returned path or
thrown error, plus whether `writeFileSync` was reached for the item's output
file. -/
structure RenderOutcome where
  result : Except JSError String
  wroteFile : Bool

/-- The zero-pages error thrown at line 137. -/
def templateNoPagesError : JSError :=
  .cge .certificateGeneratorError "Template PDF has no pages" none

/-- The `catch` block of `generateCertificate` (lines 185-194): an error that
is already an `instanceof CertificateGeneratorError` is rethrown unchanged;
anything else is wrapped once, carrying the item's name in the message and the
original error as `cause`. -/
def wrapItemError (config : CertificateConfig) (e : JSError) : JSError :=
  if e.isCertGeneratorError then e
  else
    .cge .certificateGeneratorError
      ("Failed to generate certificate for: " ++ config.name) (some e)

/-- The `try` block of `generateCertificate` (lines 130-184): load the
template, reject a pageless template, resolve the effective font size
(`config.fontSize || defaultFontSize` — zero is falsy), compute the placement,
embed the font, resolve the output path, save and write. -/
def tryGenerate (opts : GeneratorOptions) (env : RenderEnv) (today : String)
    (config : CertificateConfig) : RenderOutcome :=
  match env.loadResult with
  | .error e => ⟨.error e, false⟩
  | .ok numPages =>
    if numPages = 0 then ⟨.error templateNoPagesError, false⟩
    else
      let fontSize :=
        if truthyNum config.fontSize then config.fontSize.getD 0
        else opts.defaultFontSize
      let _position :=
        calculateTextPosition config.name fontSize env.pageWidth env.pageHeight
          config.position
      match env.embedFontResult with
      | some e => ⟨.error e, false⟩
      | none =>
        let outputPath := generateOutputPath opts today config
        match env.saveResult with
        | some e => ⟨.error e, false⟩
        | none =>
          match env.writeResult with
          | some e => ⟨.error e, true⟩
          | none => ⟨.ok outputPath, true⟩

/-- `generateCertificate` (lines 127-195): validation runs first, outside the
`try`; any error escaping the `try` body goes through the `catch` block. -/
def generateCertificate (opts : GeneratorOptions) (env : RenderEnv)
    (today : String) (config : CertificateConfig) : RenderOutcome :=
  match validateCertificateConfig opts config with
  | some e => ⟨.error e, false⟩
  | none =>
    let r := tryGenerate opts env today config
    match r.result with
    | .ok p => ⟨.ok p, r.wroteFile⟩
    | .error e => ⟨.error (wrapItemError config e), r.wroteFile⟩

/-! ### `generateCertificates` — the batch driver (lines 200-245) -/

/-- One entry of the `failed` array. -/
structure FailedEntry where
  config : CertificateConfig
  error : JSError

/-- The `{ successful, failed }` aggregate. -/
structure BatchResult where
  successful : List String
  failed : List FailedEntry

/-- The chunking of the loop
`for (let i = 0; i < configs.length; i += concurrency)` with
`configs.slice(i, i + concurrency)`: consecutive groups of `c` items, with a
fuel parameter bounding the number of iterations.  (The source validates
`concurrency > 0` in its constructor; for `c = 0` the JavaScript loop would
not terminate.) -/
def chunkGo {α : Type} (c : Nat) : Nat → List α → List (List α)
  | _, [] => []
  | 0, l => [l]
  | fuel + 1, x :: xs => (x :: xs).take c :: chunkGo c fuel ((x :: xs).drop c)

/-- The chunks of the loop, with enough fuel for any positive `c`
(each iteration consumes at least one element when `0 < c`, so `l.length`
iterations always suffice and the fuel-exhausted branch is unreachable). -/
def chunkList {α : Type} (c : Nat) (l : List α) : List (List α) :=
  chunkGo c l.length l

/-- The per-item arm of `chunk.map(async (config) => { try ... catch ... })`:
the render's result, as a success/failure value.  `envOf` gives each item's
oracle. -/
def processItem (opts : GeneratorOptions)
    (envOf : CertificateConfig → RenderEnv) (today : String)
    (config : CertificateConfig) : Except JSError String :=
  (generateCertificate opts (envOf config) today config).result

/-- The successful output path of an outcome, when there is one. -/
def okPart : Except JSError String → Option String
  | .ok p => some p
  | .error _ => none

/-- Processing of one chunk: `Promise.all` keeps the results in the chunk's
order, and the `forEach` pushes successes and failures in that order. -/
def processChunk (opts : GeneratorOptions)
    (envOf : CertificateConfig → RenderEnv) (today : String)
    (chunk : List CertificateConfig) : List String × List FailedEntry :=
  (chunk.filterMap fun c => okPart (processItem opts envOf today c),
   chunk.filterMap fun c =>
      match processItem opts envOf today c with
      | .ok _ => none
      | .error e => some ⟨c, e⟩)

/-- `generateCertificates` (lines 200-245): process the chunks in sequence,
appending each chunk's successes and failures to the accumulators. -/
def generateCertificates (opts : GeneratorOptions)
    (envOf : CertificateConfig → RenderEnv) (today : String)
    (configs : List CertificateConfig) : BatchResult :=
  (chunkList opts.concurrency configs).foldl
    (fun acc chunk =>
      let r := processChunk opts envOf today chunk
      ⟨acc.successful ++ r.1, acc.failed ++ r.2⟩)
    ⟨[], []⟩

/-- Some external step of the `try` body of `generateCertificate` throws `e`:
loading, font embedding, saving, or the final file write. -/
def stepFails (env : RenderEnv) (e : JSError) : Prop :=
  env.loadResult = .error e ∨
  (∃ n, env.loadResult = .ok (n + 1) ∧ env.embedFontResult = some e) ∨
  (∃ n, env.loadResult = .ok (n + 1) ∧ env.embedFontResult = none ∧
    env.saveResult = some e) ∨
  (∃ n, env.loadResult = .ok (n + 1) ∧ env.embedFontResult = none ∧
    env.saveResult = none ∧ env.writeResult = some e)

/-! ### Sample data used by witnesses and counterexamples -/

/-- Production-mode options with concurrency 2. -/
def sampleOptsProd : GeneratorOptions :=
  { templatePath := "template.pdf", fontPath := "font.ttf", outputDir := "/out",
    defaultFontSize := 48, defaultFontColor := ⟨10, 20, 30⟩, concurrency := 2,
    mode := .production }

/-- Test-mode options with concurrency 2. -/
def sampleOptsTest : GeneratorOptions :=
  { sampleOptsProd with mode := .test, testName := some "Demo User" }

/-- An oracle in which every external step succeeds on a one-page template. -/
def sampleEnv : RenderEnv :=
  { loadResult := .ok 1, pageWidth := 600, pageHeight := 400,
    embedFontResult := none, saveResult := none, writeResult := none }

/-- A well-formed production item. -/
def itemAda : CertificateConfig := { name := "Ada Lovelace", email := some "ada@x.com" }

/-- An item with an empty name (fails per-item validation). -/
def itemNoName : CertificateConfig := { name := "", email := some "b@x.com" }

/-- Another well-formed production item. -/
def itemGrace : CertificateConfig := { name := "Grace Hopper", email := some "grace@x.com" }

/-! ### Theorems -/

/-- `okPart` on a success. -/
theorem okPart_ok (p : String) : okPart (.ok p) = some p := rfl

/-- `okPart` on a failure. -/
theorem okPart_error (e : JSError) : okPart (.error e) = none := rfl

/-- C4: with an explicit position the placement computation returns it
unchanged; without one it returns
`x = max 0 ((pageWidth - len(text) * fontSize * 0.6) / 2)` and
`y = pageHeight / 2 - fontSize / 2`, the returned `x` is nonnegative, and the
computation is total (it is a Lean function into `Position`). -/
theorem calculateTextPosition_spec (text : String)
    (fontSize pageWidth pageHeight : ℚ) :
    (∀ p : Position,
      calculateTextPosition text fontSize pageWidth pageHeight (some p) = p) ∧
    calculateTextPosition text fontSize pageWidth pageHeight none =
      ⟨max 0 ((pageWidth - (text.length : ℚ) * fontSize * (3 / 5)) / 2),
        pageHeight / 2 - fontSize / 2⟩ ∧
    0 ≤ (calculateTextPosition text fontSize pageWidth pageHeight none).x :=
  ⟨fun _ => rfl, rfl, le_max_left 0 _⟩

/-- C7 counterexample: an item whose `outputPath` field is set to `""` does
not get `""` back — the JavaScript guard `if (config.outputPath)` treats the
empty string as falsy, so the resolver falls through to the derived name. -/
theorem generateOutputPath_override_cex :
    ({ name := "bob", outputPath := some "" } : CertificateConfig).outputPath
        = some "" ∧
    generateOutputPath sampleOptsTest "2024-01-01"
        { name := "bob", outputPath := some "" } = "/out/bob_2024-01-01.pdf" ∧
    "/out/bob_2024-01-01.pdf" ≠ "" :=
  ⟨rfl, rfl, by decide⟩

/-- C7 (amended): for every item whose `outputPath` field is set to a
non-empty string, resolution returns exactly that path, whatever the name,
email, mode, output directory or date. -/
theorem generateOutputPath_override (opts : GeneratorOptions) (today : String)
    (config : CertificateConfig) (p : String)
    (hset : config.outputPath = some p) (hne : p ≠ "") :
    generateOutputPath opts today config = p := by
  simp [generateOutputPath, truthyStr, hset, hne]

/-- C7 witness: the amended theorem at a concrete item. -/
theorem generateOutputPath_override_witness :
    generateOutputPath sampleOptsProd "2024-01-01"
      { name := "bob", outputPath := some "/tmp/custom.pdf" } = "/tmp/custom.pdf" :=
  generateOutputPath_override sampleOptsProd "2024-01-01"
    { name := "bob", outputPath := some "/tmp/custom.pdf" } "/tmp/custom.pdf"
    rfl (by decide)

/-- C5 counterexample: in production mode an item whose `email` field is set
to the empty string gets the name-only filename, not the
`<name>_<email>_<date>` form the claim prescribes for every item that has an
email (the guard `config.email && ...` treats `""` as falsy). -/
theorem generateOutputPath_email_cex :
    ({ name := "bob", email := some "" } : CertificateConfig).email = some "" ∧
    sampleOptsProd.mode = .production ∧
    generateOutputPath sampleOptsProd "2024-01-01"
        { name := "bob", email := some "" } = "/out/bob_2024-01-01.pdf" ∧
    pathJoin sampleOptsProd.outputDir
        (sanitizeFilename "bob" ++ "_" ++ sanitizeFilename "" ++ "_" ++
          "2024-01-01" ++ ".pdf") = "/out/bob__2024-01-01.pdf" ∧
    ("/out/bob_2024-01-01.pdf" : String) ≠ "/out/bob__2024-01-01.pdf" :=
  ⟨rfl, rfl, rfl, rfl, by decide⟩

/-- C5 (amended): for an item with no output-path override, the resolved path
is `outputDir/<sanitize(name)>_<date>.pdf`, except that in production mode
with a non-empty email it is
`outputDir/<sanitize(name)>_<sanitize(email)>_<date>.pdf`; the date component
is the resolver's invocation date `today`, a parameter of the run rather than
of the item. -/
theorem generateOutputPath_derived (opts : GeneratorOptions) (today : String)
    (config : CertificateConfig) (hout : config.outputPath = none) :
    (∀ e, config.email = some e → e ≠ "" → opts.mode = .production →
      generateOutputPath opts today config =
        pathJoin opts.outputDir
          (sanitizeFilename config.name ++ "_" ++ sanitizeFilename e ++ "_" ++
            today ++ ".pdf")) ∧
    ((config.email = none ∨ config.email = some "" ∨ opts.mode = .test) →
      generateOutputPath opts today config =
        pathJoin opts.outputDir
          (sanitizeFilename config.name ++ "_" ++ today ++ ".pdf")) := by
  constructor
  · intro e he hne hm
    simp [generateOutputPath, truthyStr, hout, generateOutputPathNamed, he, hne, hm]
  · rintro (h | h | h) <;>
      simp [generateOutputPath, truthyStr, hout, generateOutputPathNamed, h]

/-- C5 witness: the amended theorem at concrete production and test items. -/
theorem generateOutputPath_derived_witness :
    generateOutputPath sampleOptsProd "2024-01-01" itemAda =
      "/out/ada_lovelace_ada_x_com_2024-01-01.pdf" ∧
    generateOutputPath sampleOptsTest "2024-01-01" itemAda =
      "/out/ada_lovelace_2024-01-01.pdf" :=
  ⟨(generateOutputPath_derived sampleOptsProd "2024-01-01" itemAda rfl).1
      "ada@x.com" rfl (by decide) rfl,
   (generateOutputPath_derived sampleOptsTest "2024-01-01" itemAda rfl).2
      (Or.inr (Or.inr rfl))⟩

/-- A string has length zero exactly when it is empty. -/
theorem string_length_zero_iff (s : String) : s.length = 0 ↔ s = "" := by
  cases s with
  | mk l => cases l <;> simp [String.length, String.ext_iff]

/-- The name guard of the validator is exactly "trims to empty". -/
theorem name_guard_iff (s : String) :
    (s = "" ∨ (jsTrim s).length = 0) ↔ jsTrim s = "" := by
  constructor
  · rintro (rfl | h)
    · rfl
    · exact (string_length_zero_iff _).mp h
  · intro h
    right
    rw [h]
    rfl

/-- The font-size guard of the validator holds exactly for a present override
that is negative or greater than 200 (zero is falsy in JavaScript and skips
the guard). -/
theorem font_guard_iff (o : Option ℚ) :
    (truthyNum o = true ∧ (o.getD 0 ≤ 0 ∨ 200 < o.getD 0)) ↔
      ∃ f, o = some f ∧ (f < 0 ∨ 200 < f) := by
  cases o with
  | none => simp [truthyNum]
  | some f =>
    simp only [truthyNum, bne_iff_ne, ne_eq, Option.getD_some, Option.some.injEq]
    constructor
    · rintro ⟨hne, h | h⟩
      · exact ⟨f, rfl, Or.inl (lt_of_le_of_ne h hne)⟩
      · exact ⟨f, rfl, Or.inr h⟩
    · rintro ⟨g, rfl, h | h⟩
      · exact ⟨ne_of_lt h, Or.inl (le_of_lt h)⟩
      · exact ⟨ne_of_gt (lt_trans (by norm_num) h), Or.inr h⟩

/-- The email guard of the validator holds exactly when the email is missing
or empty after trimming. -/
theorem email_guard_iff (o : Option String) :
    ((¬ truthyStr o = true) ∨ (jsTrim (o.getD "")).length = 0) ↔
      (o = none ∨ ∃ s, o = some s ∧ jsTrim s = "") := by
  cases o with
  | none => simp [truthyStr]
  | some s =>
    simp only [truthyStr, bne_iff_ne, ne_eq, Decidable.not_not, Option.getD_some,
      Option.some.injEq, reduceCtorEq, false_or]
    rw [string_length_zero_iff]
    constructor
    · rintro (rfl | h)
      · exact ⟨"", rfl, rfl⟩
      · exact ⟨s, rfl, h⟩
    · rintro ⟨t, rfl, h⟩
      exact Or.inr h

/-- Every error returned by the validator is an `InvalidConfigError`. -/
theorem validate_some_invalid (opts : GeneratorOptions)
    (config : CertificateConfig) (v : JSError)
    (hv : validateCertificateConfig opts config = some v) :
    ∃ m, v = InvalidConfigError m := by
  unfold validateCertificateConfig at hv
  split_ifs at hv <;> exact ⟨_, (Option.some.injEq _ _ ▸ hv).symm⟩

/-- C3 counterexample: a present font-size override of `0` lies outside
`[1, 200]`, yet validation accepts the item — `config.fontSize && ...` is
falsy at `0`, so the range check is skipped. -/
theorem validateCertificateConfig_cex :
    ({ name := "bob", fontSize := some 0 } : CertificateConfig).fontSize
        = some 0 ∧
    ¬ (1 ≤ (0 : ℚ) ∧ (0 : ℚ) ≤ 200) ∧
    validateCertificateConfig sampleOptsTest
        { name := "bob", fontSize := some 0 } = none :=
  ⟨rfl, by norm_num, rfl⟩

/-- C3 (amended): per-item validation fails, always with an `InvalidConfig`
error, exactly when the name trims to empty, or a font-size override is
present and is negative or greater than 200 (a present zero override is falsy
and skips the range check, and overrides strictly between 0 and 1 pass), or
the mode is production and the email is missing or empty after trimming; the
validation error preempts every rendering step, for any oracle, and no file is
written. -/
theorem validateCertificateConfig_spec (opts : GeneratorOptions)
    (config : CertificateConfig) :
    ((validateCertificateConfig opts config).isSome ↔
      (jsTrim config.name = "" ∨
       (∃ f, config.fontSize = some f ∧ (f < 0 ∨ 200 < f)) ∨
       (opts.mode = .production ∧
         (config.email = none ∨ ∃ s, config.email = some s ∧ jsTrim s = "")))) ∧
    (∀ e, validateCertificateConfig opts config = some e →
      ∃ m, e = InvalidConfigError m) ∧
    (∀ env today e, validateCertificateConfig opts config = some e →
      generateCertificate opts env today config = ⟨.error e, false⟩) := by
  refine ⟨?_, ?_, ?_⟩
  · rw [← name_guard_iff, ← font_guard_iff, ← email_guard_iff]
    unfold validateCertificateConfig
    split_ifs with h1 h2 h3 <;> simp_all
  · exact fun e he => validate_some_invalid opts config e he
  · intro env today e he
    simp [generateCertificate, he]

/-- C3 witness: the amended characterization at concrete accepting and
rejecting items. -/
theorem validateCertificateConfig_spec_witness :
    (validateCertificateConfig sampleOptsProd itemNoName).isSome = true ∧
    (validateCertificateConfig sampleOptsTest
        { name := "bob", fontSize := some 300 }).isSome = true :=
  ⟨(validateCertificateConfig_spec sampleOptsProd itemNoName).1.mpr (Or.inl rfl),
   (validateCertificateConfig_spec sampleOptsTest
      { name := "bob", fontSize := some 300 }).1.mpr
    (Or.inr (Or.inl ⟨300, rfl, Or.inr (by norm_num)⟩))⟩

/-- C9: when the loaded template document has zero pages, the single-item
render fails with the dedicated zero-pages error (the code's realization of
the spec's `TemplateError`: a `CertificateGeneratorError` with message
"Template PDF has no pages", propagated unwrapped), and `writeFileSync` is
never reached for the item. -/
theorem generateCertificate_zeroPages (opts : GeneratorOptions)
    (env : RenderEnv) (today : String) (config : CertificateConfig)
    (hv : validateCertificateConfig opts config = none)
    (hl : env.loadResult = .ok 0) :
    (generateCertificate opts env today config).result =
      .error templateNoPagesError ∧
    (generateCertificate opts env today config).wroteFile = false := by
  constructor <;>
    simp [generateCertificate, hv, tryGenerate, hl, wrapItemError,
      templateNoPagesError, JSError.isCertGeneratorError]

/-- C9 witness: the zero-pages theorem at a concrete item and oracle. -/
theorem generateCertificate_zeroPages_witness :
    (generateCertificate sampleOptsTest { sampleEnv with loadResult := .ok 0 }
        "2024-01-01" { name := "bob" }).result = .error templateNoPagesError ∧
    (generateCertificate sampleOptsTest { sampleEnv with loadResult := .ok 0 }
        "2024-01-01" { name := "bob" }).wroteFile = false :=
  generateCertificate_zeroPages sampleOptsTest
    { sampleEnv with loadResult := .ok 0 } "2024-01-01" { name := "bob" }
    rfl rfl

/-- C8: every failing render surfaces as an `instanceof
CertificateGeneratorError`; an error of that kind propagates through the
`catch` unchanged (no double wrapping), any other failure at any step is
wrapped exactly once into a `CertificateGeneratorError` whose message names
the item and whose `cause` is the original error. -/
theorem generateCertificate_failure_policy (opts : GeneratorOptions)
    (env : RenderEnv) (today : String) (config : CertificateConfig) :
    (∀ e, (generateCertificate opts env today config).result = .error e →
      e.isCertGeneratorError = true) ∧
    (∀ e, e.isCertGeneratorError = true → wrapItemError config e = e) ∧
    (∀ e, e.isCertGeneratorError = false →
      wrapItemError config e =
        .cge .certificateGeneratorError
          ("Failed to generate certificate for: " ++ config.name) (some e)) ∧
    (validateCertificateConfig opts config = none →
      ∀ e, stepFails env e →
        (generateCertificate opts env today config).result =
          .error (wrapItemError config e)) := by
  refine ⟨?_, ?_, ?_, ?_⟩
  · intro e he
    unfold generateCertificate at he
    rcases hv : validateCertificateConfig opts config with _ | v
    · rw [hv] at he
      simp only at he
      rcases hr : (tryGenerate opts env today config).result with f | p
      · rw [hr] at he
        simp only [Except.error.injEq] at he
        subst he
        unfold wrapItemError
        split_ifs with hf
        · exact hf
        · rfl
      · rw [hr] at he
        simp at he
    · rw [hv] at he
      simp only [Except.error.injEq] at he
      subst he
      rcases validate_some_invalid opts config v hv with ⟨m, rfl⟩
      rfl
  · intro e he
    unfold wrapItemError
    simp [he]
  · intro e he
    unfold wrapItemError
    simp [he]
  · intro hv e hstep
    rcases hstep with h | ⟨n, h1, h2⟩ | ⟨n, h1, h2, h3⟩ | ⟨n, h1, h2, h3, h4⟩ <;>
      simp [generateCertificate, hv, tryGenerate, *]

/-- C8 witness: a foreign write error at a concrete item is wrapped once with
the item's name and the original cause. -/
theorem generateCertificate_failure_policy_witness :
    (generateCertificate sampleOptsProd
        { sampleEnv with writeResult := some (.external "disk full") }
        "2024-01-01" itemAda).result =
      .error (wrapItemError itemAda (.external "disk full")) :=
  (generateCertificate_failure_policy sampleOptsProd
      { sampleEnv with writeResult := some (.external "disk full") }
      "2024-01-01" itemAda).2.2.2 rfl (.external "disk full")
    (Or.inr (Or.inr (Or.inr ⟨0, rfl, rfl, rfl, rfl⟩)))

/-! ### The sanitizer invariant -/

/-- The per-character effect of the first two sanitizer stages. -/
def sanChar (c : Char) : Char :=
  toLowerChar (if isAsciiAlnum c then c else '_')

/-- Every character of the list is a lowercase ASCII alphanumeric or an
underscore. -/
def sanitizedChars (l : List Char) : Prop :=
  ∀ c ∈ l, isLowerAlnumChar c = true ∨ c = '_'

/-- No two adjacent underscores. -/
def noDoubleUnderscore (l : List Char) : Prop :=
  l.Chain' fun a b => ¬(a = '_' ∧ b = '_')

/-- `Char.ofNat` is faithful on the lowercase-letter range. -/
theorem toNat_ofNat_lower (n : Nat) (h1 : 97 ≤ n) (h2 : n ≤ 122) :
    (Char.ofNat n).toNat = n := by
  interval_cases n <;> decide

/-- The first two sanitizer stages produce only lowercase alphanumerics and
underscores. -/
theorem sanChar_good (c : Char) :
    isLowerAlnumChar (sanChar c) = true ∨ sanChar c = '_' := by
  unfold sanChar
  by_cases h : isAsciiAlnum c = true
  · rw [if_pos h]
    left
    unfold isAsciiAlnum at h
    unfold toLowerChar
    by_cases h2 : (65 ≤ c.toNat && c.toNat ≤ 90) = true
    · rw [if_pos h2]
      simp only [Bool.and_eq_true, decide_eq_true_eq] at h2
      unfold isLowerAlnumChar
      rw [toNat_ofNat_lower (c.toNat + 32) (by omega) (by omega)]
      simp only [Bool.or_eq_true, Bool.and_eq_true, decide_eq_true_eq]
      omega
    · rw [if_neg h2]
      unfold isLowerAlnumChar
      simp only [Bool.or_eq_true, Bool.and_eq_true, decide_eq_true_eq] at h h2 ⊢
      omega
  · rw [if_neg h]
    right
    decide

/-- The composition of the first two stages is a single character map. -/
theorem lowerAll_replaceNonAlnum (l : List Char) :
    lowerAll (replaceNonAlnum l) = l.map sanChar := by
  unfold lowerAll replaceNonAlnum sanChar
  rw [List.map_map]
  rfl

/-- Collapsing does not change the first character. -/
theorem collapseU_head? : ∀ l : List Char, (collapseU l).head? = l.head?
  | [] => rfl
  | [_] => rfl
  | a :: b :: rest => by
    unfold collapseU
    split_ifs with h
    · rw [collapseU_head? (b :: rest)]
      simp [h.1, h.2]
    · simp

/-- Collapsing only keeps characters of the input. -/
theorem collapseU_mem : ∀ (l : List Char) (c : Char), c ∈ collapseU l → c ∈ l
  | [], _ => by simp [collapseU]
  | [_], _ => by simp [collapseU]
  | a :: b :: rest, c => by
    unfold collapseU
    split_ifs with h
    · intro hc
      exact List.mem_cons_of_mem a (collapseU_mem (b :: rest) c hc)
    · intro hc
      rcases List.mem_cons.mp hc with rfl | hc
      · exact List.mem_cons_self ..
      · exact List.mem_cons_of_mem a (collapseU_mem (b :: rest) c hc)

/-- Collapsing leaves no two adjacent underscores. -/
theorem collapseU_noDouble : ∀ l : List Char, noDoubleUnderscore (collapseU l)
  | [] => List.chain'_nil
  | [c] => List.chain'_singleton c
  | a :: b :: rest => by
    unfold collapseU
    split_ifs with h
    · exact collapseU_noDouble (b :: rest)
    · rw [noDoubleUnderscore, List.chain'_cons']
      refine ⟨?_, collapseU_noDouble (b :: rest)⟩
      intro y hy
      rw [collapseU_head? (b :: rest)] at hy
      simp only [List.head?_cons, Option.mem_def, Option.some.injEq] at hy
      subst hy
      exact h

/-- Collapsing is the identity on lists with no adjacent underscores. -/
theorem collapseU_id : ∀ l : List Char, noDoubleUnderscore l → collapseU l = l
  | [], _ => rfl
  | [_], _ => rfl
  | a :: b :: rest, h => by
    rw [noDoubleUnderscore, List.chain'_cons] at h
    unfold collapseU
    rw [if_neg h.1, collapseU_id (b :: rest) h.2]

/-- Dropping a leading underscore only keeps characters of the input. -/
theorem dropLeadU_mem (l : List Char) (c : Char) (hc : c ∈ dropLeadU l) :
    c ∈ l := by
  cases l with
  | nil => simp [dropLeadU] at hc
  | cons a t =>
    rw [dropLeadU] at hc
    split_ifs at hc with h
    · exact List.mem_cons_of_mem a hc
    · exact hc

/-- Dropping a leading underscore preserves the no-adjacent-underscores
invariant. -/
theorem dropLeadU_noDouble (l : List Char) (h : noDoubleUnderscore l) :
    noDoubleUnderscore (dropLeadU l) := by
  cases l with
  | nil => exact List.chain'_nil
  | cons a t =>
    rw [dropLeadU]
    split_ifs with ha
    · exact h.tail
    · exact h

/-- After collapsing, dropping a leading underscore leaves a head that is not
an underscore. -/
theorem dropLeadU_head (l : List Char) (h : noDoubleUnderscore l) :
    (dropLeadU l).head? ≠ some '_' := by
  cases l with
  | nil => simp [dropLeadU]
  | cons a t =>
    rw [dropLeadU]
    split_ifs with ha
    · subst ha
      intro heq
      have h1 := (List.chain'_cons'.mp h).1 '_' (by rw [heq]; rfl)
      exact h1 ⟨rfl, rfl⟩
    · simpa using ha

/-- Dropping a leading underscore preserves a non-underscore last element. -/
theorem dropLeadU_getLast (l : List Char) (h : l.getLast? ≠ some '_') :
    (dropLeadU l).getLast? ≠ some '_' := by
  cases l with
  | nil => simp [dropLeadU]
  | cons a t =>
    rw [dropLeadU]
    split_ifs with ha
    · cases t with
      | nil => simp
      | cons b u =>
        rw [List.getLast?_cons_cons] at h
        exact h
    · exact h

/-- Dropping a leading underscore is the identity when the head is not an
underscore. -/
theorem dropLeadU_id (l : List Char) (h : l.head? ≠ some '_') :
    dropLeadU l = l := by
  cases l with
  | nil => rfl
  | cons a t =>
    rw [dropLeadU, if_neg]
    simpa using h

/-- Reversal preserves the no-adjacent-underscores invariant. -/
theorem noDouble_reverse (l : List Char) (h : noDoubleUnderscore l) :
    noDoubleUnderscore l.reverse := by
  rw [noDoubleUnderscore, List.chain'_reverse]
  exact h.imp fun a b hab hc => hab ⟨hc.2, hc.1⟩

/-- Dropping a trailing underscore only keeps characters of the input. -/
theorem dropTrailU_mem (l : List Char) (c : Char) (hc : c ∈ dropTrailU l) :
    c ∈ l := by
  unfold dropTrailU at hc
  rw [List.mem_reverse] at hc
  exact List.mem_reverse.mp (dropLeadU_mem l.reverse c hc)

/-- Dropping a trailing underscore preserves the invariant. -/
theorem dropTrailU_noDouble (l : List Char) (h : noDoubleUnderscore l) :
    noDoubleUnderscore (dropTrailU l) :=
  noDouble_reverse _ (dropLeadU_noDouble _ (noDouble_reverse _ h))

/-- After collapsing, dropping a trailing underscore leaves a last character
that is not an underscore. -/
theorem dropTrailU_getLast (l : List Char) (h : noDoubleUnderscore l) :
    (dropTrailU l).getLast? ≠ some '_' := by
  unfold dropTrailU
  rw [List.getLast?_reverse]
  exact dropLeadU_head l.reverse (noDouble_reverse l h)

/-- Dropping a trailing underscore preserves a non-underscore head. -/
theorem dropTrailU_head (l : List Char) (h : l.head? ≠ some '_') :
    (dropTrailU l).head? ≠ some '_' := by
  unfold dropTrailU
  rw [List.head?_reverse]
  apply dropLeadU_getLast
  rw [List.getLast?_reverse]
  exact h

/-- Dropping a trailing underscore is the identity when the last character is
not an underscore. -/
theorem dropTrailU_id (l : List Char) (h : l.getLast? ≠ some '_') :
    dropTrailU l = l := by
  unfold dropTrailU
  rw [dropLeadU_id l.reverse (by rw [List.head?_reverse]; exact h),
    List.reverse_reverse]

/-- The sanitizer's output: only lowercase alphanumerics and underscores, no
two adjacent underscores, and no leading or trailing underscore. -/
theorem sanitizeList_props (l : List Char) :
    sanitizedChars (sanitizeList l) ∧ noDoubleUnderscore (sanitizeList l) ∧
    (sanitizeList l).head? ≠ some '_' ∧
    (sanitizeList l).getLast? ≠ some '_' := by
  have hchars0 : sanitizedChars (lowerAll (replaceNonAlnum l)) := by
    rw [lowerAll_replaceNonAlnum]
    intro c hc
    obtain ⟨a, _, rfl⟩ := List.mem_map.mp hc
    exact sanChar_good a
  have hchars1 : sanitizedChars (collapseU (lowerAll (replaceNonAlnum l))) :=
    fun c hc => hchars0 c (collapseU_mem _ c hc)
  have hnd : noDoubleUnderscore (collapseU (lowerAll (replaceNonAlnum l))) :=
    collapseU_noDouble _
  have hnd1 := dropLeadU_noDouble _ hnd
  have hh := dropLeadU_head _ hnd
  refine ⟨?_, ?_, ?_, ?_⟩
  · intro c hc
    exact hchars1 c (dropLeadU_mem _ c (dropTrailU_mem _ c hc))
  · exact dropTrailU_noDouble _ hnd1
  · exact dropTrailU_head _ hh
  · exact dropTrailU_getLast _ hnd1

/-- C6: the sanitizer is exactly the four-stage pipeline of the source
(replace every character outside `[A-Za-z0-9]` by `_`, lowercase, collapse
runs of `_`, strip a leading/trailing `_`), and consequently every sanitized
filename contains only lowercase alphanumerics and single underscores, with no
leading or trailing underscore. -/
theorem sanitizeFilename_spec (s : String) :
    sanitizeFilename s =
      ⟨stripEdges (collapseU (lowerAll (replaceNonAlnum s.data)))⟩ ∧
    (∀ c ∈ (sanitizeFilename s).data,
      isLowerAlnumChar c = true ∨ c = '_') ∧
    noDoubleUnderscore (sanitizeFilename s).data ∧
    (sanitizeFilename s).data.head? ≠ some '_' ∧
    (sanitizeFilename s).data.getLast? ≠ some '_' :=
  ⟨rfl, (sanitizeList_props s.data).1, (sanitizeList_props s.data).2.1,
    (sanitizeList_props s.data).2.2.1, (sanitizeList_props s.data).2.2.2⟩

/-- C6 witness: the invariant theorem applied to a concrete string. -/
theorem sanitizeFilename_spec_witness :
    (sanitizeFilename "--Ada Lovelace!!").data.head? ≠ some '_' ∧
    (isLowerAlnumChar 'a' = true ∨ 'a' = '_') :=
  ⟨(sanitizeFilename_spec "--Ada Lovelace!!").2.2.2.1,
    (sanitizeFilename_spec "--Ada Lovelace!!").2.1 'a' (by decide)⟩

/-- Stage 1 is the identity on already-sanitized characters. -/
theorem replaceNonAlnum_id (l : List Char) (h : sanitizedChars l) :
    replaceNonAlnum l = l := by
  induction l with
  | nil => rfl
  | cons c t ih =>
    unfold replaceNonAlnum
    have hc := h c (List.mem_cons_self ..)
    have ht : replaceNonAlnum t = t :=
      ih fun x hx => h x (List.mem_cons_of_mem c hx)
    unfold replaceNonAlnum at ht
    rw [List.map_cons, ht]
    rcases hc with hc | rfl
    · rw [if_pos]
      unfold isAsciiAlnum
      unfold isLowerAlnumChar at hc
      simp only [Bool.or_eq_true, Bool.and_eq_true, decide_eq_true_eq] at hc ⊢
      omega
    · rfl

/-- Stage 2 is the identity on already-sanitized characters. -/
theorem lowerAll_id (l : List Char) (h : sanitizedChars l) :
    lowerAll l = l := by
  induction l with
  | nil => rfl
  | cons c t ih =>
    unfold lowerAll
    have hc := h c (List.mem_cons_self ..)
    have ht : lowerAll t = t :=
      ih fun x hx => h x (List.mem_cons_of_mem c hx)
    unfold lowerAll at ht
    rw [List.map_cons, ht]
    have hcc : toLowerChar c = c := by
      rcases hc with hc | rfl
      · unfold toLowerChar
        rw [if_neg]
        unfold isLowerAlnumChar at hc
        simp only [Bool.or_eq_true, Bool.and_eq_true, decide_eq_true_eq] at hc ⊢
        omega
      · rfl
    rw [hcc]

/-- The sanitizer is the identity on its own output. -/
theorem sanitizeList_idem (l : List Char) :
    sanitizeList (sanitizeList l) = sanitizeList l := by
  obtain ⟨hc, hnd, hh, hl⟩ := sanitizeList_props l
  conv_lhs => rw [sanitizeList]
  rw [replaceNonAlnum_id _ hc, lowerAll_id _ hc, collapseU_id _ hnd,
    stripEdges, dropLeadU_id _ hh, dropTrailU_id _ hl]

/-- C10: the filename sanitizer is idempotent — re-sanitizing an
already-derived filename never changes it. -/
theorem sanitizeFilename_idem (s : String) :
    sanitizeFilename (sanitizeFilename s) = sanitizeFilename s := by
  unfold sanitizeFilename
  rw [show (⟨sanitizeList s.data⟩ : String).data = sanitizeList s.data from rfl,
    sanitizeList_idem]

/-! ### Chunking lemmas for the batch driver -/

/-- With enough fuel, the chunks concatenate back to the input list: the
partition is consecutive and order-preserving. -/
theorem chunkGo_join {α : Type} (c : Nat) (hc : 0 < c) :
    ∀ (fuel : Nat) (l : List α), l.length ≤ fuel →
      (chunkGo c fuel l).flatten = l := by
  intro fuel
  induction fuel with
  | zero =>
    intro l hl
    have h0 : l = [] := List.eq_nil_of_length_eq_zero (Nat.le_zero.mp hl)
    subst h0
    rfl
  | succ n ih =>
    intro l hl
    cases l with
    | nil => rfl
    | cons x xs =>
      rw [chunkGo, List.flatten_cons,
        ih ((x :: xs).drop c)
          (by simp only [List.length_drop, List.length_cons] at hl ⊢; omega)]
      exact List.take_append_drop c (x :: xs)

/-- Every chunk has at most `c` elements. -/
theorem chunkGo_sizes {α : Type} (c : Nat) (hc : 0 < c) :
    ∀ (fuel : Nat) (l : List α), l.length ≤ fuel →
      ∀ ch ∈ chunkGo c fuel l, ch.length ≤ c := by
  intro fuel
  induction fuel with
  | zero =>
    intro l hl
    have h0 : l = [] := List.eq_nil_of_length_eq_zero (Nat.le_zero.mp hl)
    subst h0
    simp [chunkGo]
  | succ n ih =>
    intro l hl ch hch
    cases l with
    | nil => simp [chunkGo] at hch
    | cons x xs =>
      rw [chunkGo] at hch
      rcases List.mem_cons.mp hch with rfl | hch
      · rw [List.length_take]
        exact min_le_left ..
      · exact ih ((x :: xs).drop c)
          (by simp only [List.length_drop, List.length_cons] at hl ⊢; omega) ch hch

/-- There are exactly `⌈length / c⌉ = (length + c - 1) / c` chunks. -/
theorem chunkGo_count {α : Type} (c : Nat) (hc : 0 < c) :
    ∀ (fuel : Nat) (l : List α), l.length ≤ fuel →
      (chunkGo c fuel l).length = (l.length + c - 1) / c := by
  intro fuel
  induction fuel with
  | zero =>
    intro l hl
    have h0 : l = [] := List.eq_nil_of_length_eq_zero (Nat.le_zero.mp hl)
    subst h0
    have hd : (c - 1) / c = 0 := Nat.div_eq_of_lt (by omega)
    simp [chunkGo, hd]
  | succ n ih =>
    intro l hl
    cases l with
    | nil =>
      have hd : (c - 1) / c = 0 := Nat.div_eq_of_lt (by omega)
      simp [chunkGo, hd]
    | cons x xs =>
      rw [chunkGo, List.length_cons,
        ih ((x :: xs).drop c)
          (by simp only [List.length_drop, List.length_cons] at hl ⊢; omega)]
      rw [List.length_drop, List.length_cons]
      rcases le_or_lt c (xs.length + 1) with h | h
      · have h3 : xs.length + 1 - c + c - 1 = xs.length := by omega
        have h2 : xs.length + 1 + c - 1 = xs.length + c := by omega
        rw [h3, h2, Nat.add_div_right _ hc]
      · have h1 : xs.length + 1 - c = 0 := by omega
        have h2 : 0 + c - 1 = c - 1 := by omega
        have h4 : xs.length + 1 + c - 1 = xs.length + c := by omega
        rw [h1, h2, h4, Nat.div_eq_of_lt (show c - 1 < c by omega),
          Nat.add_div_right _ hc,
          Nat.div_eq_of_lt (show xs.length < c by omega)]

/-- C2: the batch driver partitions the batch into consecutive groups of at
most `concurrency` items, preserving input order (the groups concatenate back
to the batch); there are exactly `⌈N / concurrency⌉` groups; and the driver
is precisely the strictly sequential left fold over these groups, so at most
one group — hence at most `concurrency` renders — is in flight at a time. -/
theorem generateCertificates_grouping (opts : GeneratorOptions)
    (configs : List CertificateConfig) (hc : 0 < opts.concurrency) :
    (chunkList opts.concurrency configs).flatten = configs ∧
    (∀ g ∈ chunkList opts.concurrency configs,
      g.length ≤ opts.concurrency) ∧
    (chunkList opts.concurrency configs).length =
      (configs.length + opts.concurrency - 1) / opts.concurrency ∧
    (∀ envOf today,
      generateCertificates opts envOf today configs =
        (chunkList opts.concurrency configs).foldl
          (fun acc chunk =>
            let r := processChunk opts envOf today chunk
            ⟨acc.successful ++ r.1, acc.failed ++ r.2⟩) ⟨[], []⟩) :=
  ⟨chunkGo_join opts.concurrency hc configs.length configs (le_refl _),
   chunkGo_sizes opts.concurrency hc configs.length configs (le_refl _),
   chunkGo_count opts.concurrency hc configs.length configs (le_refl _),
   fun _ _ => rfl⟩

/-- C2 witness: the grouping theorem at a concrete three-item batch with
concurrency 2. -/
theorem generateCertificates_grouping_witness :
    (chunkList sampleOptsProd.concurrency
        [itemAda, itemNoName, itemGrace]).flatten
        = [itemAda, itemNoName, itemGrace] ∧
    (chunkList sampleOptsProd.concurrency
        [itemAda, itemNoName, itemGrace]).length = 2 :=
  ⟨(generateCertificates_grouping sampleOptsProd [itemAda, itemNoName, itemGrace]
      (by decide)).1,
   (generateCertificates_grouping sampleOptsProd [itemAda, itemNoName, itemGrace]
      (by decide)).2.2.1⟩

/-- Chunk processing distributes over append. -/
theorem processChunk_append (opts : GeneratorOptions)
    (envOf : CertificateConfig → RenderEnv) (today : String)
    (a b : List CertificateConfig) :
    processChunk opts envOf today (a ++ b) =
      ((processChunk opts envOf today a).1 ++ (processChunk opts envOf today b).1,
       (processChunk opts envOf today a).2 ++ (processChunk opts envOf today b).2) := by
  simp [processChunk, List.filterMap_append]

/-- The sequential fold over chunks accumulates exactly the flat processing of
their concatenation. -/
theorem foldl_chunks (opts : GeneratorOptions)
    (envOf : CertificateConfig → RenderEnv) (today : String) :
    ∀ (chs : List (List CertificateConfig)) (acc : BatchResult),
      chs.foldl
          (fun acc chunk =>
            let r := processChunk opts envOf today chunk
            ⟨acc.successful ++ r.1, acc.failed ++ r.2⟩) acc =
        ⟨acc.successful ++ (processChunk opts envOf today chs.flatten).1,
         acc.failed ++ (processChunk opts envOf today chs.flatten).2⟩
  | [], acc => by simp [processChunk]
  | ch :: chs, acc => by
    rw [List.foldl_cons, foldl_chunks opts envOf today chs, List.flatten_cons,
      processChunk_append]
    simp [List.append_assoc]

/-- The batch driver equals the flat, order-preserving processing of the whole
input list (chunking only bounds concurrency; it does not change outcomes). -/
theorem generateCertificates_flat (opts : GeneratorOptions)
    (envOf : CertificateConfig → RenderEnv) (today : String)
    (configs : List CertificateConfig) (hc : 0 < opts.concurrency) :
    generateCertificates opts envOf today configs =
      ⟨(processChunk opts envOf today configs).1,
       (processChunk opts envOf today configs).2⟩ := by
  unfold generateCertificates
  rw [foldl_chunks]
  unfold chunkList
  rw [chunkGo_join opts.concurrency hc configs.length configs (le_refl _)]
  simp

/-- A list of items that all render successfully contributes all its paths, in
order, and no failures. -/
theorem processChunk_all_ok (opts : GeneratorOptions)
    (envOf : CertificateConfig → RenderEnv) (today : String) :
    ∀ l : List CertificateConfig,
      (∀ cfg ∈ l, ∃ p, processItem opts envOf today cfg = .ok p) →
      (l.filterMap fun c => okPart (processItem opts envOf today c)).length
          = l.length ∧
      (l.filterMap fun c =>
        match processItem opts envOf today c with
        | .ok _ => none
        | .error e => some (FailedEntry.mk c e)) = []
  | [], _ => ⟨rfl, rfl⟩
  | cfg :: t, h => by
    obtain ⟨p, hp⟩ := h cfg (List.mem_cons_self ..)
    have ih := processChunk_all_ok opts envOf today t
      fun x hx => h x (List.mem_cons_of_mem cfg hx)
    constructor
    · simp only [List.filterMap_cons, hp, okPart_ok, List.length_cons, ih.1]
    · simp only [List.filterMap_cons, hp]
      exact ih.2

/-- C1: a batch in which exactly one item fails (every item of `pre` and
`post` renders successfully, `bad` fails with `e`) yields exactly one `failed`
entry, carrying that item and its error; the other `N - 1` items all appear in
`successful`, in input order, with their own output paths; the batch function
is total (it never throws). -/
theorem generateCertificates_single_failure (opts : GeneratorOptions)
    (envOf : CertificateConfig → RenderEnv) (today : String)
    (pre post : List CertificateConfig) (bad : CertificateConfig) (e : JSError)
    (hc : 0 < opts.concurrency)
    (hpre : ∀ cfg ∈ pre, ∃ p, processItem opts envOf today cfg = .ok p)
    (hpost : ∀ cfg ∈ post, ∃ p, processItem opts envOf today cfg = .ok p)
    (hbad : processItem opts envOf today bad = .error e) :
    (generateCertificates opts envOf today (pre ++ bad :: post)).failed
        = [⟨bad, e⟩] ∧
    (generateCertificates opts envOf today (pre ++ bad :: post)).failed.length
        = 1 ∧
    (generateCertificates opts envOf today
        (pre ++ bad :: post)).successful.length = pre.length + post.length ∧
    (generateCertificates opts envOf today (pre ++ bad :: post)).successful =
      (pre ++ post).filterMap
        fun cfg => okPart (processItem opts envOf today cfg) := by
  rw [generateCertificates_flat opts envOf today (pre ++ bad :: post) hc]
  obtain ⟨hpre1, hpre2⟩ := processChunk_all_ok opts envOf today pre hpre
  obtain ⟨hpost1, hpost2⟩ := processChunk_all_ok opts envOf today post hpost
  refine ⟨?_, ?_, ?_, ?_⟩
  · simp only [processChunk, List.filterMap_append, List.filterMap_cons, hbad,
      hpre2, hpost2]
    simp
  · simp only [processChunk, List.filterMap_append, List.filterMap_cons, hbad,
      hpre2, hpost2]
    simp
  · simp only [processChunk, List.filterMap_append, List.filterMap_cons, hbad,
      okPart_error]
    simp [hpre1, hpost1]
  · simp only [processChunk, List.filterMap_append, List.filterMap_cons, hbad,
      okPart_error]

/-- C1 witness: the spec's scenario — `[Ada, empty-name, Grace]` under
production options with concurrency 2 and an all-good oracle gives one failed
entry and two successful paths. -/
theorem generateCertificates_single_failure_witness :
    (generateCertificates sampleOptsProd (fun _ => sampleEnv) "2024-01-01"
        [itemAda, itemNoName, itemGrace]).failed.length = 1 ∧
    (generateCertificates sampleOptsProd (fun _ => sampleEnv) "2024-01-01"
        [itemAda, itemNoName, itemGrace]).successful.length = 2 :=
  ⟨(generateCertificates_single_failure sampleOptsProd (fun _ => sampleEnv)
      "2024-01-01" [itemAda] [itemGrace] itemNoName
      (InvalidConfigError "Certificate name cannot be empty") (by decide)
      (fun cfg hcfg => by
        rw [List.mem_singleton.mp hcfg]
        exact ⟨"/out/ada_lovelace_ada_x_com_2024-01-01.pdf", rfl⟩)
      (fun cfg hcfg => by
        rw [List.mem_singleton.mp hcfg]
        exact ⟨"/out/grace_hopper_grace_x_com_2024-01-01.pdf", rfl⟩)
      rfl).2.1,
   (generateCertificates_single_failure sampleOptsProd (fun _ => sampleEnv)
      "2024-01-01" [itemAda] [itemGrace] itemNoName
      (InvalidConfigError "Certificate name cannot be empty") (by decide)
      (fun cfg hcfg => by
        rw [List.mem_singleton.mp hcfg]
        exact ⟨"/out/ada_lovelace_ada_x_com_2024-01-01.pdf", rfl⟩)
      (fun cfg hcfg => by
        rw [List.mem_singleton.mp hcfg]
        exact ⟨"/out/grace_hopper_grace_x_com_2024-01-01.pdf", rfl⟩)
      rfl).2.2.1⟩

end CertGen
